import Mathlib

set_option maxHeartbeats 1000000

namespace NexusForge

/-! # Shallow embedding of the NexusForge user microservice core

Embeds `app/utils/auth.py`, `app/utils/security.py`, `app/utils/cache.py`,
`app/middleware/rate_limit.py`, `app/models/user.py` and
`app/services/user_service.py` of the Python repository. Machine-level
details (bytes, crypto primitives, wall-clock) are modelled explicitly;
fallible Python code is embedded with `Except`/`Option` results, where an
`Except.error` models an exception escaping to the caller. -/

/-! ## Python string primitives

Python strings are modelled by Lean `String`, operated on through the
underlying character list (ASCII fragment of Python's Unicode
behavior). -/

/-- Python `s.lower()` (ASCII fragment). -/
def pyLower (s : String) : String := ⟨s.data.map Char.toLower⟩

/-- The whitespace characters `str.strip()` removes (ASCII fragment). -/
def pyIsSpace (c : Char) : Bool :=
  c = ' ' || c = '\t' || c = '\n' || c = '\r' || c = '\x0b' || c = '\x0c'

/-- Python `s.strip()`: removes leading and trailing whitespace. -/
def pyStrip (s : String) : String :=
  ⟨((s.data.dropWhile pyIsSpace).reverse.dropWhile pyIsSpace).reverse⟩

/-- An ASCII decimal digit. -/
def pyIsDigit (c : Char) : Bool := '0' ≤ c && c ≤ '9'

/-- Value of a decimal digit string. -/
def digitsVal (l : List Char) : Nat :=
  l.foldl (fun a c => 10 * a + (c.toNat - 48)) 0

/-- Parses a nonempty all-digit character list; `none` otherwise. -/
def parseNatDigits (l : List Char) : Option Nat :=
  if !l.isEmpty && l.all pyIsDigit then some (digitsVal l) else none

/-- Python `int(s)` applied to a string: surrounding whitespace is
stripped, an optional single sign is allowed, then at least one decimal
digit is required. `none` models `int` raising `ValueError`. -/
def pyIntOfString (s : String) : Option Int :=
  match (pyStrip s).data with
  | '-' :: rest => (parseNatDigits rest).map (fun n => -(n : Int))
  | '+' :: rest => (parseNatDigits rest).map (fun n => (n : Int))
  | l => (parseNatDigits l).map (fun n => (n : Int))

/-- Python `s.isalnum()` (ASCII fragment): true iff `s` is nonempty and
every character is a letter or digit. -/
def pyIsalnum (s : String) : Bool :=
  !s.data.isEmpty && s.data.all Char.isAlphanum

/-- Python `c in s` for a single-character needle. -/
def pyContains (s : String) (c : Char) : Bool := s.data.contains c

/-! ## JWT layer (`app/utils/auth.py`)

`python-jose` internals are modelled explicitly: a token is either
structurally corrupt (raises `JWTError` while parsing) or a payload plus
a signature value; `jose` checks the signature against the key, rejects a
present non-string `sub` claim (`JWTClaimsError ⊆ JWTError`), and rejects
an expiry not in the future (`ExpiredSignatureError ⊆ JWTError`). -/

/-- The `sub` claim as the `jose` validator classifies it: a JSON string,
or any non-string JSON value (which `jose` rejects). -/
inductive SubClaim
  | str (s : String)
  | nonString
deriving DecidableEq, Repr

/-- The decoded JWT payload fields read by `decode_access_token`. -/
structure Payload where
  sub : Option SubClaim
  username : Option String
  email : Option String
  exp : Int
  iat : Int
deriving DecidableEq, Repr

/-- Injection of a payload into `Nat` used by the modelled signature. -/
def encodeStrN (s : String) : Nat :=
  s.data.foldl (fun a c => Nat.pair a c.toNat) 1

/-- Numeric encoding of an optional `sub` claim. -/
def encodeSub : Option SubClaim → Nat
  | none => 0
  | some .nonString => 1
  | some (.str s) => 2 + encodeStrN s

/-- Numeric encoding of an optional string claim. -/
def encodeOptStr : Option String → Nat
  | none => 0
  | some s => 1 + encodeStrN s

/-- Numeric encoding of the whole payload. -/
def encodePayload (p : Payload) : Nat :=
  Nat.pair (encodeSub p.sub)
    (Nat.pair (encodeOptStr p.username)
      (Nat.pair (encodeOptStr p.email) (Nat.pair p.exp.toNat (Nat.pair p.exp.natAbs p.iat.natAbs))))

/-- The HMAC signature of a payload under a signing key, modelled as a
deterministic keyed function of the payload's encoding. -/
def signPayload (key : Nat) (p : Payload) : Nat :=
  Nat.pair key (encodePayload p)

/-- A bearer token as the decoder sees it: structurally well-formed with
a payload and an attached signature value, or corrupt. -/
inductive Token
  | signed (payload : Payload) (sig : Nat)
  | corrupt
deriving DecidableEq, Repr

/-- `jose.jwt.decode(token, key, algorithms=[alg])`: `Except.error ()`
models a raised `JWTError` (structural corruption, signature mismatch,
non-string subject, or expiry not in the future). -/
def jwtDecode (key : Nat) (now : Int) : Token → Except Unit Payload
  | .corrupt => .error ()
  | .signed p sig =>
    if sig ≠ signPayload key p then .error ()
    else
      match p.sub with
      | some .nonString => .error ()
      | _ => if p.exp ≤ now then .error () else .ok p

/-- A Python exception escaping `decode_access_token`. -/
inductive PyError
  | valueError
deriving DecidableEq, Repr

/-- `app/schemas/user.py` `TokenData` (with the successfully converted
integer subject id). -/
structure TokenData where
  user_id : Int
  username : Option String
  email : Option String
deriving DecidableEq, Repr

/-- `decode_access_token` (`app/utils/auth.py:52-75`): `jwt.decode`
inside `try/except JWTError`; a caught `JWTError` returns `None`; a
missing `sub` returns `None`; otherwise `int(user_id)` converts the
subject, and a failing conversion raises `ValueError` outside the
`except` clause — modelled as `Except.error .valueError`. -/
def decode_access_token (key : Nat) (now : Int) (tok : Token) :
    Except PyError (Option TokenData) :=
  match jwtDecode key now tok with
  | .error _ => .ok none
  | .ok p =>
    match p.sub with
    | none => .ok none
    | some (.str s) =>
      match pyIntOfString s with
      | some n => .ok (some ⟨n, p.username, p.email⟩)
      | none => .error .valueError
    | some .nonString => .ok none

/-- Input data for `create_access_token` (the `data` dict fields the
service puts into the token). -/
structure TokenInput where
  sub : Option SubClaim
  username : Option String
  email : Option String
deriving DecidableEq, Repr

/-- `create_access_token` (`app/utils/auth.py:27-49`): expiry is
`now + expires_delta` when a delta is passed, else
`now + default_minutes * 60`; payload is signed with the process key. -/
def create_access_token (key : Nat) (now : Int) (data : TokenInput)
    (expires_delta : Option Int) (default_minutes : Int) : Token :=
  let expire : Int :=
    match expires_delta with
    | some d => now + d
    | none => now + default_minutes * 60
  let p : Payload := ⟨data.sub, data.username, data.email, expire, now⟩
  .signed p (signPayload key p)

/-! ## C1: token verification behavior -/

/-- A validly signed, unexpired payload whose `sub` claim is the
non-numeric string `"abc"`. -/
def cexPayloadC1 : Payload := ⟨some (.str "abc"), some "alice", some "a@x.com", 100, 0⟩

/-- **C1** counterexample: the claim says `decode_access_token` never
raises for a malformed or non-numeric subject claim, but on a validly
signed, unexpired token whose `sub` is the string `"abc"`, `jwt.decode`
succeeds and `int("abc")` raises `ValueError`, which is not caught by
the `except JWTError` clause and escapes to the caller. -/
theorem decode_access_token_raises_on_nonnumeric_sub :
    decode_access_token 7 0 (.signed cexPayloadC1 (signPayload 7 cexPayloadC1)) =
      .error .valueError := rfl

/-- **C1** (amended): `decode_access_token` fails closed (returns `none`
rather than raising) on structural corruption, signature mismatch,
non-string subject, expiry in the past, and missing subject; an
exception escapes only for a validly signed, unexpired token whose
subject is a non-numeric string. A freshly issued token with numeric
subject `n` decodes to claims whose subject id equals `n`. -/
theorem decode_access_token_fail_closed :
    (∀ (key : Nat) (now : Int) (tok : Token) (e : PyError),
      decode_access_token key now tok = .error e →
        ∃ p s, tok = .signed p (signPayload key p) ∧ now < p.exp ∧
          p.sub = some (.str s) ∧ pyIntOfString s = none) ∧
    (∀ (key : Nat) (now : Int) (data : TokenInput) (d dm : Int) (s : String) (n : Int),
      data.sub = some (.str s) → pyIntOfString s = some n → 0 < d →
      decode_access_token key now (create_access_token key now data (some d) dm) =
        .ok (some ⟨n, data.username, data.email⟩)) := by
  constructor
  · intro key now tok e h
    cases tok with
    | corrupt => simp [decode_access_token, jwtDecode] at h
    | signed p sig =>
      by_cases hsig : sig = signPayload key p
      · cases hsub : p.sub with
        | none =>
          by_cases hexp : p.exp ≤ now <;>
            simp [decode_access_token, jwtDecode, hsig, hsub, hexp] at h
        | some sc =>
          cases sc with
          | nonString => simp [decode_access_token, jwtDecode, hsig, hsub] at h
          | str s =>
            by_cases hexp : p.exp ≤ now
            · simp [decode_access_token, jwtDecode, hsig, hsub, hexp] at h
            · cases hint : pyIntOfString s with
              | some n => simp [decode_access_token, jwtDecode, hsig, hsub, hexp, hint] at h
              | none =>
                exact ⟨p, s, by rw [hsig], by omega, hsub, hint⟩
      · simp [decode_access_token, jwtDecode, hsig] at h
  · intro key now data d dm s n hsub hint hd
    simp only [create_access_token, decode_access_token, jwtDecode, hsub]
    have hexp : ¬ (now + d ≤ now) := by omega
    simp [hexp, hint]

/-- Witness for the C1 theorem at a concrete freshly issued token. -/
theorem decode_access_token_fail_closed_witness :
    decode_access_token 7 0
        (create_access_token 7 0 ⟨some (.str "5"), some "u", none⟩ (some 60) 30) =
      .ok (some ⟨5, some "u", none⟩) :=
  decode_access_token_fail_closed.2 7 0 ⟨some (.str "5"), some "u", none⟩ 60 30 "5" 5 rfl
    (by decide) (by decide)

/-! ## PasswordHasher (`app/utils/security.py`) -/

/-- Modelled from the spec: the bcrypt transform itself lives in the
external `passlib` library, not in the repository's application code;
per §4.1 it is a self-salting one-way transform whose digest embeds the
salt. Modelled as a keyed MAC of the password under the embedded salt. -/
def bcryptMac (salt : Nat) (pw : String) : Nat :=
  Nat.pair salt (encodeStrN pw)

/-- A digest as `passlib` classifies it: a well-formed bcrypt digest
carrying its salt and MAC, or malformed input (on which
`pwd_context.verify` raises internally). -/
inductive DigestInput
  | digest (salt : Nat) (mac : Nat)
  | malformed
deriving DecidableEq, Repr

/-- `get_password_hash` (`app/utils/security.py:17-27`):
`pwd_context.hash(password)`; the fresh salt passlib draws per call is
made explicit as an argument. -/
def get_password_hash (salt : Nat) (password : String) : DigestInput :=
  .digest salt (bcryptMac salt password)

/-- `verify_password` (`app/utils/security.py:30-45`):
`pwd_context.verify` inside `try/except Exception`; a malformed digest
makes passlib raise, the handler swallows the exception and returns
`False`. -/
def verify_password (plain_password : String) (hashed_password : DigestInput) : Bool :=
  match hashed_password with
  | .digest s m => bcryptMac s plain_password == m
  | .malformed => false

/-- **C9**: hashing then verifying succeeds for every password and every
salt; two calls with distinct fresh salts yield distinct digests that
both verify; and verification of a malformed digest returns `false`
(total function: the model never raises). -/
theorem password_hash_roundtrip :
    ∀ (pw : String) (s1 s2 : Nat),
      verify_password pw (get_password_hash s1 pw) = true ∧
      (s1 ≠ s2 →
        get_password_hash s1 pw ≠ get_password_hash s2 pw ∧
        verify_password pw (get_password_hash s2 pw) = true) ∧
      verify_password pw .malformed = false := by
  intro pw s1 s2
  refine ⟨?_, ?_, rfl⟩
  · simp [verify_password, get_password_hash]
  · intro hne
    refine ⟨?_, ?_⟩
    · intro h
      have h2 : s1 = s2 ∧ bcryptMac s1 pw = bcryptMac s2 pw := by
        simpa [get_password_hash, DigestInput.digest.injEq] using h
      exact hne h2.1
    · simp [verify_password, get_password_hash]

/-- Witness for the C9 theorem at a concrete password and salts 0, 1. -/
theorem password_hash_roundtrip_witness :
    verify_password "Abcd1234" (get_password_hash 0 "Abcd1234") = true ∧
      get_password_hash 0 "Abcd1234" ≠ get_password_hash 1 "Abcd1234" ∧
      verify_password "Abcd1234" .malformed = false :=
  ⟨(password_hash_roundtrip "Abcd1234" 0 1).1,
   ((password_hash_roundtrip "Abcd1234" 0 1).2.1 (by decide)).1,
   (password_hash_roundtrip "Abcd1234" 0 1).2.2⟩

/-! ## User model (`app/models/user.py`) -/

/-- Service-level error outcomes: `ValueError` raised by the service or
by a model validator, and a failed store commit. -/
inductive SvcError
  | dupEmail (e : String)
  | dupUsername (n : String)
  | invalidEmail
  | invalidUsername
  | commitFailed
deriving DecidableEq, Repr

/-- `User.validate_email` (`app/models/user.py:63-68`), run by SQLAlchemy
on every assignment to `User.email`: requires a nonempty string
containing `'@'`, then normalizes with `lower().strip()`. -/
def validate_email (email : String) : Except SvcError String :=
  if email.data.isEmpty || !(pyContains email '@') then .error .invalidEmail
  else .ok (pyStrip (pyLower email))

/-- `User.validate_username` (`app/models/user.py:70-77`), run on every
assignment to `User.username`: rejects when shorter than 3 characters;
rejects when `not username.isalnum() and "_" not in username` — note the
character-set check is skipped entirely whenever the string contains an
underscore; then normalizes with `lower().strip()`. -/
def validate_username (username : String) : Except SvcError String :=
  if username.data.isEmpty || username.data.length < 3 then .error .invalidUsername
  else if !(pyIsalnum username) && !(pyContains username '_') then .error .invalidUsername
  else .ok (pyStrip (pyLower username))

/-- The Pydantic schema validator for usernames
(`app/schemas/user.py:18-24`, `60-66`): rejects unless
`v.replace("_", "").isalnum()`, then lower-cases. This is the check the
model validator's own error message describes. -/
def schemaValidateUsername (v : String) : Except SvcError String :=
  if !(pyIsalnum ⟨v.data.filter (fun c => c ≠ '_')⟩) then .error .invalidUsername
  else .ok (pyLower v)

/-- **C10** (code bug evidence): the model validator accepts the
username `"ab_$"` — it contains `'$'`, outside letters/digits/underscore,
but the presence of `'_'` short-circuits the character-set check — while
the schema validator implementing the same documented rule rejects it.
The claim (and the validator's own error message) require rejection. -/
theorem validate_username_accepts_invalid_char :
    validate_username "ab_$" = .ok "ab_$" ∧
      '$' ∈ "ab_$".data ∧ ('$').isAlphanum = false ∧ '$' ≠ '_' ∧
      schemaValidateUsername "ab_$" = .error .invalidUsername := by
  refine ⟨rfl, by decide, by decide, by decide, rfl⟩

/-- A row of the `users` table (`app/models/user.py`), restricted to the
fields the embedded operations read or write. -/
structure UserRec where
  id : Int
  email : String
  username : String
  hashed_password : DigestInput
  full_name : Option String
  is_active : Bool
  is_verified : Bool
  is_superuser : Bool
  deleted_at : Option Int
  email_verified_at : Option Int
deriving DecidableEq, Repr

/-! ## CacheManager (`app/utils/cache.py`) -/

/-- A Python value as cached by this application. -/
inductive PyVal
  | pyNone
  | pyStr (s : String)
  | pyInt (n : Int)
  | pyUser (u : UserRec)
deriving DecidableEq, Repr

/-- The observable deserialization behavior of the bytes Redis returned,
following the exact branch cascade of `CacheManager.get`
(`app/utils/cache.py:91-100`): `json.loads` succeeds; or it raises one
of the handled types and `pickle.loads` succeeds; or both raise their
handled types (`JSONDecodeError`/`TypeError`, then
`PickleError`/`TypeError`) and the code keeps the raw value; or
`pickle.loads` raises an unhandled exception type, reaching the outer
`except Exception` handler. -/
inductive Stored
  | jsonVal (v : PyVal)
  | pickleVal (v : PyVal)
  | rawVal (s : String)
  | undecodable
deriving DecidableEq, Repr

/-- Outcome of the `await self._redis.get(key)` call: a stored value, an
absent key (`None`), or a raised backend error. -/
inductive Fetch
  | found (s : Stored)
  | absent
  | backendError
deriving DecidableEq, Repr

/-- `CacheManager.get` (`app/utils/cache.py:72-103`): returns the
`default` when caching is disabled, the key is absent, the backend
raises, or deserialization raises an unhandled type; returns the
JSON- or pickle-decoded value on success; returns the raw stored value
when both decoders fail with handled types. Total: never raises. -/
def cacheManagerGet (enable_cache : Bool) (fetch : Fetch) (default : PyVal) : PyVal :=
  if !enable_cache then default
  else
    match fetch with
    | .backendError => default
    | .absent => default
    | .found (.jsonVal v) => v
    | .found (.pickleVal v) => v
    | .found (.rawVal s) => .pyStr s
    | .found .undecodable => default

/-- **C3** counterexample: the claim says `CacheManager.get` returns the
miss default whenever deserialization of the stored value fails; but
when both `json.loads` and `pickle.loads` fail with the handled error
types, the code returns the raw stored value (here `"hello"`), not the
default `None` — a value the caller cannot use as the cached entity. -/
theorem cache_get_returns_raw_on_decode_failure :
    cacheManagerGet true (.found (.rawVal "hello")) .pyNone = .pyStr "hello" ∧
      PyVal.pyStr "hello" ≠ .pyNone := by
  exact ⟨rfl, by decide⟩

/-- **C3** (amended): `CacheManager.get` never raises (it is total) and
returns the miss default when caching is globally disabled, when the
backend raises, when the key is absent, and when deserialization raises
an unhandled exception type; when both the JSON and pickle decoders fail
with their handled error types it returns the raw stored value instead
of the default; a decoded value is returned as-is. -/
theorem cache_get_fail_open :
    ∀ (f : Fetch) (default : PyVal) (s : String) (v : PyVal),
      cacheManagerGet false f default = default ∧
      cacheManagerGet true .backendError default = default ∧
      cacheManagerGet true .absent default = default ∧
      cacheManagerGet true (.found .undecodable) default = default ∧
      cacheManagerGet true (.found (.rawVal s)) default = .pyStr s ∧
      cacheManagerGet true (.found (.jsonVal v)) default = v ∧
      cacheManagerGet true (.found (.pickleVal v)) default = v := by
  intro f default s v
  exact ⟨rfl, rfl, rfl, rfl, rfl, rfl, rfl⟩

/-! ## UserService (`app/services/user_service.py`)

The relational store is modelled as the list of `users` rows, the cache
as an association list of pickled user snapshots. `cacheOk` models the
cache backend being reachable with `enable_cache = true` (when false,
`CacheManager.get` returns its default and `set`/`delete` report
failure with no effect); `commitOk` models whether `db.commit()`
succeeds (when false the commit raises and the transaction rolls back,
leaving the store unchanged). A successful commit persists the
session-loaded row under the operation's id. -/

/-- The id-keyed cache key `"user:" + user_id`. -/
def userKey (uid : Int) : String := "user:" ++ toString uid

/-- The service-level view of the Redis cache. -/
abbrev UserCache := List (String × UserRec)

/-- Redis `GET` of a pickled user snapshot. -/
def cacheFind (c : UserCache) (k : String) : Option UserRec :=
  (c.find? (fun e => e.1 == k)).map (fun e => e.2)

/-- Redis `SETEX`: overwrites the entry under `k`. -/
def cacheInsert (c : UserCache) (k : String) (u : UserRec) : UserCache :=
  (k, u) :: c.filter (fun e => e.1 != k)

/-- Redis `DELETE` of one key. -/
def cacheErase (c : UserCache) (k : String) : UserCache :=
  c.filter (fun e => e.1 != k)

/-- `SELECT ... WHERE id = uid AND deleted_at IS NULL` with
`scalar_one_or_none`. -/
def dbFindById (db : List UserRec) (uid : Int) : Option UserRec :=
  db.find? (fun u => u.id == uid && u.deleted_at.isNone)

/-- `SELECT ... WHERE email = email.lower() AND deleted_at IS NULL`. -/
def dbFindByEmail (db : List UserRec) (email : String) : Option UserRec :=
  db.find? (fun u => u.email == pyLower email && u.deleted_at.isNone)

/-- `SELECT ... WHERE username = username.lower() AND deleted_at IS NULL`. -/
def dbFindByUsername (db : List UserRec) (username : String) : Option UserRec :=
  db.find? (fun u => u.username == pyLower username && u.deleted_at.isNone)

/-- The store after a successful commit of the session row `u'` loaded
under id `uid`. -/
def dbUpdate (db : List UserRec) (uid : Int) (u' : UserRec) : List UserRec :=
  db.map (fun v => if v.id == uid then u' else v)

/-- The state a service call operates on: the authoritative relational
store and the disposable cache. -/
structure World where
  db : List UserRec
  cache : UserCache
deriving DecidableEq, Repr

/-- Externally visible store/cache effects of one service call, in
execution order. -/
inductive Event
  | dbCommit
  | dbCommitFail
  | cacheDelete (key : String)
deriving DecidableEq, Repr

/-- `UserService.get_user_by_id` (`user_service.py:71-99`): cache-aside
read; on a store hit the cache is repopulated (TTL 300s), and a failing
repopulation never blocks returning the result. -/
def get_user_by_id (cacheOk : Bool) (w : World) (uid : Int) : Option UserRec × World :=
  let key := userKey uid
  match (if cacheOk then cacheFind w.cache key else none) with
  | some u => (some u, w)
  | none =>
    match dbFindById w.db uid with
    | some u =>
      (some u, if cacheOk then { w with cache := cacheInsert w.cache key u } else w)
    | none => (none, w)

/-- `app/schemas/user.py` `UserUpdate` as the service receives it (after
Pydantic validation; the schema lower-cases `username` but leaves the
case of `email`'s local part untouched). -/
structure UserUpdate where
  email : Option String
  username : Option String
  full_name : Option String
  password : Option String
  is_active : Option Bool
deriving DecidableEq, Repr

/-- `user_service.py:184-189`: `if user_data.email and user_data.email
!= user.email`, uniqueness pre-check against the store (which
lower-cases the probe), then the assignment `user.email = ...` running
the model validator. -/
def applyEmailPatch (db : List UserRec) (u : UserRec) : Option String → Except SvcError UserRec
  | none => .ok u
  | some e =>
    if e.data.isEmpty then .ok u
    else if e ≠ u.email then
      match dbFindByEmail db e with
      | some _ => .error (.dupEmail e)
      | none => (validate_email e).map (fun v => { u with email := v })
    else .ok u

/-- `user_service.py:191-196`: the username analogue. -/
def applyUsernamePatch (db : List UserRec) (u : UserRec) : Option String → Except SvcError UserRec
  | none => .ok u
  | some n =>
    if n.data.isEmpty then .ok u
    else if n ≠ u.username then
      match dbFindByUsername db n with
      | some _ => .error (.dupUsername n)
      | none => (validate_username n).map (fun v => { u with username := v })
    else .ok u

/-- `user_service.py:198-206`: the remaining selective field updates
(`full_name` when not `None`, `password` when truthy — re-hashed with a
fresh salt —, `is_active` when not `None`). -/
def applyRestPatch (salt : Nat) (patch : UserUpdate) (u : UserRec) : UserRec :=
  let u1 := match patch.full_name with
    | some fn => { u with full_name := some fn }
    | none => u
  let u2 := match patch.password with
    | some p =>
      if p.data.isEmpty then u1 else { u1 with hashed_password := get_password_hash salt p }
    | none => u1
  match patch.is_active with
  | some b => { u2 with is_active := b }
  | none => u2

/-- The commit-then-invalidate tail shared by the three mutating
operations (`user_service.py:208-213`, `237-241`, `262-267`): commit,
then delete the id-keyed cache entry; a failed commit raises and
nothing is invalidated. -/
def commitPhase (cacheOk commitOk : Bool) (w1 : World) (uid : Int) (u' : UserRec) :
    Except SvcError Unit × World × List Event :=
  if commitOk then
    let w2 : World := { w1 with db := dbUpdate w1.db uid u' }
    if cacheOk then
      (.ok (), { w2 with cache := cacheErase w2.cache (userKey uid) },
        [.dbCommit, .cacheDelete (userKey uid)])
    else (.ok (), w2, [.dbCommit])
  else (.error .commitFailed, w1, [.dbCommitFail])

/-- `UserService.update_user` (`user_service.py:166-217`). -/
def update_user (cacheOk commitOk : Bool) (salt : Nat) (w : World) (uid : Int)
    (patch : UserUpdate) : Except SvcError (Option UserRec) × World × List Event :=
  match get_user_by_id cacheOk w uid with
  | (none, w1) => (.ok none, w1, [])
  | (some u, w1) =>
    match (applyEmailPatch w1.db u patch.email).bind
        (fun u1 => applyUsernamePatch w1.db u1 patch.username) with
    | .error err => (.error err, w1, [])
    | .ok u2 =>
      let u' := applyRestPatch salt patch u2
      let t := commitPhase cacheOk commitOk w1 uid u'
      (t.1.map (fun _ => some u'), t.2.1, t.2.2)

/-- `UserService.delete_user` (`user_service.py:219-245`): soft delete
(`deleted_at := now`, `is_active := false`), commit, invalidate. -/
def delete_user (cacheOk commitOk : Bool) (now : Int) (w : World) (uid : Int) :
    Except SvcError Bool × World × List Event :=
  match get_user_by_id cacheOk w uid with
  | (none, w1) => (.ok false, w1, [])
  | (some u, w1) =>
    let u' : UserRec := { u with deleted_at := some now, is_active := false }
    let t := commitPhase cacheOk commitOk w1 uid u'
    (t.1.map (fun _ => true), t.2.1, t.2.2)

/-- `UserService.verify_user_email` (`user_service.py:247-271`):
`User.verify_email()` sets `is_verified` and the timestamp; commit;
invalidate. -/
def verify_user_email (cacheOk commitOk : Bool) (now : Int) (w : World) (uid : Int) :
    Except SvcError (Option UserRec) × World × List Event :=
  match get_user_by_id cacheOk w uid with
  | (none, w1) => (.ok none, w1, [])
  | (some u, w1) =>
    let u' : UserRec := { u with is_verified := true, email_verified_at := some now }
    let t := commitPhase cacheOk commitOk w1 uid u'
    (t.1.map (fun _ => some u'), t.2.1, t.2.2)

/-! ## C2: invalidation ordering -/

/-- Scans an effect trace left to right and checks that every cache
deletion is preceded by an earlier successful store commit; the flag
records whether a successful commit has been seen. -/
def invalidateAfterCommit : List Event → Bool → Bool
  | [], _ => true
  | .dbCommit :: tr, _ => invalidateAfterCommit tr true
  | .dbCommitFail :: tr, seen => invalidateAfterCommit tr seen
  | .cacheDelete _ :: tr, seen => seen && invalidateAfterCommit tr seen

lemma commitPhase_trace (c k : Bool) (w1 : World) (uid : Int) (u' : UserRec) :
    invalidateAfterCommit (commitPhase c k w1 uid u').2.2 false = true := by
  cases c <;> cases k <;> rfl

lemma commitPhase_fail (c : Bool) (w1 : World) (uid : Int) (u' : UserRec) :
    commitPhase c false w1 uid u' = (.error .commitFailed, w1, [.dbCommitFail]) := by
  cases c <;> rfl

lemma get_user_by_id_snd_db (c : Bool) (w : World) (uid : Int) :
    (get_user_by_id c w uid).2.db = w.db := by
  cases c <;> unfold get_user_by_id <;>
    cases hc : cacheFind w.cache (userKey uid) <;>
    cases hdb : dbFindById w.db uid <;> simp [hc, hdb]

lemma get_user_by_id_cache_stable (c : Bool) (w : World) (uid : Int) (v : UserRec)
    (h : cacheFind w.cache (userKey uid) = some v) :
    (get_user_by_id c w uid).2.cache = w.cache := by
  cases c
  · unfold get_user_by_id
    cases hdb : dbFindById w.db uid <;> simp [hdb]
  · unfold get_user_by_id
    simp [h]

/-- **C2**: for each mutating operation (`update_user`, `delete_user`,
`verify_user_email`), every cache deletion in the effect trace comes
after the successful store commit, and when the commit fails no cache
deletion is performed — in particular a pre-existing id-keyed cache
entry survives unchanged. -/
theorem mutations_invalidate_cache_only_after_commit :
    ∀ (cacheOk commitOk : Bool) (salt : Nat) (now : Int) (w : World) (uid : Int)
      (patch : UserUpdate),
      (invalidateAfterCommit (update_user cacheOk commitOk salt w uid patch).2.2 false = true ∧
        invalidateAfterCommit (delete_user cacheOk commitOk now w uid).2.2 false = true ∧
        invalidateAfterCommit (verify_user_email cacheOk commitOk now w uid).2.2 false = true) ∧
      (commitOk = false →
        (∀ k, Event.cacheDelete k ∉ (update_user cacheOk commitOk salt w uid patch).2.2 ∧
          Event.cacheDelete k ∉ (delete_user cacheOk commitOk now w uid).2.2 ∧
          Event.cacheDelete k ∉ (verify_user_email cacheOk commitOk now w uid).2.2) ∧
        ∀ v, cacheFind w.cache (userKey uid) = some v →
          cacheFind (update_user cacheOk commitOk salt w uid patch).2.1.cache (userKey uid)
              = some v ∧
          cacheFind (delete_user cacheOk commitOk now w uid).2.1.cache (userKey uid) = some v ∧
          cacheFind (verify_user_email cacheOk commitOk now w uid).2.1.cache (userKey uid)
              = some v) := by
  intro cacheOk commitOk salt now w uid patch
  rcases hg : get_user_by_id cacheOk w uid with ⟨r, w1⟩
  have hw1 : (get_user_by_id cacheOk w uid).2 = w1 := by rw [hg]
  cases r with
  | none =>
    simp only [update_user, delete_user, verify_user_email, hg]
    refine ⟨⟨rfl, rfl, rfl⟩, ?_⟩
    intro _
    refine ⟨fun k => by simp, fun v hv => ?_⟩
    have : w1.cache = w.cache := by
      rw [← hw1]; exact get_user_by_id_cache_stable cacheOk w uid v hv
    simp [this, hv]
  | some u =>
    have hcachest : ∀ v, cacheFind w.cache (userKey uid) = some v → w1.cache = w.cache := by
      intro v hv
      rw [← hw1]; exact get_user_by_id_cache_stable cacheOk w uid v hv
    simp only [update_user, delete_user, verify_user_email, hg]
    cases hp : (applyEmailPatch w1.db u patch.email).bind
        (fun u1 => applyUsernamePatch w1.db u1 patch.username) with
    | error err =>
      cases commitOk
      · simp only [commitPhase_fail]
        refine ⟨⟨rfl, rfl, rfl⟩, ?_⟩
        intro _
        refine ⟨fun k => by simp, fun v hv => by simp [hcachest v hv, hv]⟩
      · refine ⟨⟨rfl, commitPhase_trace .., commitPhase_trace ..⟩, ?_⟩
        intro hfalse
        exact absurd hfalse (by simp)
    | ok u2 =>
      cases commitOk
      · simp only [commitPhase_fail]
        refine ⟨⟨rfl, rfl, rfl⟩, ?_⟩
        intro _
        refine ⟨fun k => by simp, fun v hv => by simp [hcachest v hv, hv]⟩
      · refine ⟨⟨?_, ?_, ?_⟩, ?_⟩
        · have h := commitPhase_trace cacheOk true w1 uid (applyRestPatch salt patch u2)
          rcases hcp : commitPhase cacheOk true w1 uid (applyRestPatch salt patch u2)
            with ⟨cr, w2, tr⟩
          rw [hcp] at h
          cases cr <;> simpa [hcp] using h
        · have h := commitPhase_trace cacheOk true w1 uid
            { u with deleted_at := some now, is_active := false }
          rcases hcp : commitPhase cacheOk true w1 uid
            { u with deleted_at := some now, is_active := false } with ⟨cr, w2, tr⟩
          rw [hcp] at h
          cases cr <;> simpa [hcp] using h
        · have h := commitPhase_trace cacheOk true w1 uid
            { u with is_verified := true, email_verified_at := some now }
          rcases hcp : commitPhase cacheOk true w1 uid
            { u with is_verified := true, email_verified_at := some now } with ⟨cr, w2, tr⟩
          rw [hcp] at h
          cases cr <;> simpa [hcp] using h
        · intro hfalse
          exact absurd hfalse (by simp)
/-! ## C4: duplicate-error characterization of `update_user` -/

lemma applyEmailPatch_dup_iff (db : List UserRec) (u : UserRec) (pe : Option String)
    (e : String) :
    applyEmailPatch db u pe = .error (.dupEmail e) ↔
      pe = some e ∧ e.data.isEmpty = false ∧ e ≠ u.email ∧ (dbFindByEmail db e).isSome = true := by
  cases pe with
  | none => simp [applyEmailPatch]
  | some e0 =>
    constructor
    · intro h
      simp only [applyEmailPatch] at h
      split at h
      · exact absurd h (by simp)
      · rename_i hemp
        split at h
        · rename_i hne
          split at h
          · rename_i v hfv
            have he : e0 = e := by simpa using h
            subst he
            exact ⟨rfl, by simpa using hemp, hne, by simp [hfv]⟩
          · unfold validate_email at h
            split at h <;> simp [Except.map] at h
        · exact absurd h (by simp)
    · rintro ⟨he, hemp, hne, hs⟩
      obtain rfl : e0 = e := by simpa using he
      obtain ⟨v, hv⟩ := Option.isSome_iff_exists.mp hs
      simp [applyEmailPatch, hemp, hne, hv]

lemma applyUsernamePatch_dup_iff (db : List UserRec) (u : UserRec) (pn : Option String)
    (n : String) :
    applyUsernamePatch db u pn = .error (.dupUsername n) ↔
      pn = some n ∧ n.data.isEmpty = false ∧ n ≠ u.username ∧
        (dbFindByUsername db n).isSome = true := by
  cases pn with
  | none => simp [applyUsernamePatch]
  | some n0 =>
    constructor
    · intro h
      simp only [applyUsernamePatch] at h
      split at h
      · exact absurd h (by simp)
      · rename_i hemp
        split at h
        · rename_i hne
          split at h
          · rename_i v hfv
            have he : n0 = n := by simpa using h
            subst he
            exact ⟨rfl, by simpa using hemp, hne, by simp [hfv]⟩
          · unfold validate_username at h
            split at h
            · simp [Except.map] at h
            · split at h <;> simp [Except.map] at h
        · exact absurd h (by simp)
    · rintro ⟨hn, hemp, hne, hs⟩
      obtain rfl : n0 = n := by simpa using hn
      obtain ⟨v, hv⟩ := Option.isSome_iff_exists.mp hs
      simp [applyUsernamePatch, hemp, hne, hv]

lemma validate_email_error (e : String) (err : SvcError)
    (h : validate_email e = .error err) : err = .invalidEmail := by
  unfold validate_email at h
  split at h
  · injection h with h2
    exact h2.symm
  · exact absurd h (by simp)

lemma validate_username_error (n : String) (err : SvcError)
    (h : validate_username n = .error err) : err = .invalidUsername := by
  unfold validate_username at h
  split at h
  · injection h with h2
    exact h2.symm
  · split at h
    · injection h with h2
      exact h2.symm
    · exact absurd h (by simp)

lemma applyEmailPatch_no_dupUsername (db : List UserRec) (u : UserRec) (pe : Option String)
    (n : String) : applyEmailPatch db u pe ≠ .error (.dupUsername n) := by
  cases pe with
  | none => simp [applyEmailPatch]
  | some e0 =>
    simp only [applyEmailPatch]
    split
    · simp
    · split
      · cases hf : dbFindByEmail db e0 with
        | some v => simp
        | none =>
          intro h
          cases hv : validate_email e0 with
          | error err =>
            rw [hv] at h
            have he : err = SvcError.invalidEmail := validate_email_error e0 err hv
            subst he
            simp [Except.map] at h
          | ok v =>
            rw [hv] at h
            simp [Except.map] at h
      · simp

lemma applyUsernamePatch_no_dupEmail (db : List UserRec) (u : UserRec) (pn : Option String)
    (e : String) : applyUsernamePatch db u pn ≠ .error (.dupEmail e) := by
  cases pn with
  | none => simp [applyUsernamePatch]
  | some n0 =>
    simp only [applyUsernamePatch]
    split
    · simp
    · split
      · cases hf : dbFindByUsername db n0 with
        | some v => simp
        | none =>
          intro h
          cases hv : validate_username n0 with
          | error err =>
            rw [hv] at h
            have he : err = SvcError.invalidUsername := validate_username_error n0 err hv
            subst he
            simp [Except.map] at h
          | ok v =>
            rw [hv] at h
            simp [Except.map] at h
      · simp

lemma applyEmailPatch_ok_username (db : List UserRec) (u u1 : UserRec) (pe : Option String)
    (h : applyEmailPatch db u pe = .ok u1) : u1.username = u.username := by
  cases pe with
  | none =>
    simp only [applyEmailPatch, Except.ok.injEq] at h
    rw [← h]
  | some e0 =>
    simp only [applyEmailPatch] at h
    split at h
    · obtain rfl : u = u1 := by simpa using h
      rfl
    · split at h
      · split at h
        · exact absurd h (by simp)
        · unfold validate_email at h
          split at h
          · simp [Except.map] at h
          · have h2 : ({ u with email := pyStrip (pyLower e0) } : UserRec) = u1 := by
              simpa [Except.map] using h
            rw [← h2]
      · obtain rfl : u = u1 := by simpa using h
        rfl

lemma dbFindByEmail_isSome_iff (db : List UserRec) (e : String) :
    (dbFindByEmail db e).isSome = true ↔
      ∃ v ∈ db, v.deleted_at = none ∧ v.email = pyLower e := by
  constructor
  · intro h
    obtain ⟨v, hv⟩ := Option.isSome_iff_exists.mp h
    have hmem := List.mem_of_find?_eq_some hv
    have hp := List.find?_some hv
    simp only [Bool.and_eq_true, beq_iff_eq, Option.isNone_iff_eq_none] at hp
    exact ⟨v, hmem, hp.2, hp.1⟩
  · rintro ⟨v, hmem, hdel, hem⟩
    cases hf : dbFindByEmail db e with
    | some _ => simp
    | none =>
      have h2 := List.find?_eq_none.mp hf v hmem
      simp [hem, hdel] at h2

lemma dbFindByUsername_isSome_iff (db : List UserRec) (n : String) :
    (dbFindByUsername db n).isSome = true ↔
      ∃ v ∈ db, v.deleted_at = none ∧ v.username = pyLower n := by
  constructor
  · intro h
    obtain ⟨v, hv⟩ := Option.isSome_iff_exists.mp h
    have hmem := List.mem_of_find?_eq_some hv
    have hp := List.find?_some hv
    simp only [Bool.and_eq_true, beq_iff_eq, Option.isNone_iff_eq_none] at hp
    exact ⟨v, hmem, hp.2, hp.1⟩
  · rintro ⟨v, hmem, hdel, hem⟩
    cases hf : dbFindByUsername db n with
    | some _ => simp
    | none =>
      have h2 := List.find?_eq_none.mp hf v hmem
      simp [hem, hdel] at h2

lemma commitPhase_fst (c k : Bool) (w1 : World) (uid : Int) (u' : UserRec) :
    (commitPhase c k w1 uid u').1 =
      (if k then .ok () else .error .commitFailed) := by
  cases k <;> cases c <;> rfl

lemma update_user_fst_error_iff (cacheOk commitOk : Bool) (salt : Nat) (w : World)
    (uid : Int) (patch : UserUpdate) (u : UserRec) (w1 : World)
    (hg : get_user_by_id cacheOk w uid = (some u, w1)) (err : SvcError)
    (hne : err ≠ .commitFailed) :
    (update_user cacheOk commitOk salt w uid patch).1 = .error err ↔
      (applyEmailPatch w1.db u patch.email).bind
        (fun u1 => applyUsernamePatch w1.db u1 patch.username) = .error err := by
  cases hb : (applyEmailPatch w1.db u patch.email).bind
      (fun u1 => applyUsernamePatch w1.db u1 patch.username) with
  | error e1 =>
    have hres : (update_user cacheOk commitOk salt w uid patch).1 = .error e1 := by
      simp [update_user, hg, hb]
    rw [hres]
    simp only [Except.error.injEq]
  | ok u2 =>
    have hres : (update_user cacheOk commitOk salt w uid patch).1 =
        ((commitPhase cacheOk commitOk w1 uid (applyRestPatch salt patch u2)).1).map
          (fun _ => some (applyRestPatch salt patch u2)) := by
      simp [update_user, hg, hb]
    rw [hres, commitPhase_fst]
    cases commitOk
    · simp only [Bool.false_eq_true, if_false, Except.map]
      constructor
      · intro h
        injection h with h2
        exact absurd h2.symm hne
      · intro h
        exact absurd h (by simp)
    · simp [Except.map]
/-- **C4** (amended): for an existing user `u`, `update_user` raises the
duplicate error for a field iff the patch supplies a truthy value that
differs as a raw string from `u`'s stored (already normalized) value and
whose lower-casing equals the stored value of some non-deleted user —
possibly `u` itself. A patch value string-identical to the user's own
stored value never raises a duplicate error; but a mere case variant of
the user's own email does (see the counterexample). -/
theorem update_user_duplicate_error_characterization :
    ∀ (cacheOk commitOk : Bool) (salt : Nat) (w : World) (uid : Int) (patch : UserUpdate)
      (u : UserRec) (w1 : World) (e n : String),
      get_user_by_id cacheOk w uid = (some u, w1) →
      (((update_user cacheOk commitOk salt w uid patch).1 = .error (.dupEmail e)) ↔
        (patch.email = some e ∧ e.data.isEmpty = false ∧ e ≠ u.email ∧
          ∃ v ∈ w.db, v.deleted_at = none ∧ v.email = pyLower e)) ∧
      (((update_user cacheOk commitOk salt w uid patch).1 = .error (.dupUsername n)) ↔
        ((∃ u1, applyEmailPatch w.db u patch.email = .ok u1) ∧
          patch.username = some n ∧ n.data.isEmpty = false ∧ n ≠ u.username ∧
          ∃ v ∈ w.db, v.deleted_at = none ∧ v.username = pyLower n)) ∧
      (patch.email = some u.email →
        ∀ e2, (update_user cacheOk commitOk salt w uid patch).1 ≠ .error (.dupEmail e2)) ∧
      (patch.username = some u.username →
        ∀ n2, (update_user cacheOk commitOk salt w uid patch).1 ≠ .error (.dupUsername n2)) := by
  intro cacheOk commitOk salt w uid patch u w1 e n hg
  have hdb : w1.db = w.db := by
    have h2 := get_user_by_id_snd_db cacheOk w uid
    rw [hg] at h2
    exact h2
  refine ⟨?_, ?_, ?_, ?_⟩
  · rw [update_user_fst_error_iff cacheOk commitOk salt w uid patch u w1 hg (.dupEmail e)
      (by simp), hdb]
    constructor
    · intro hb
      cases hA : applyEmailPatch w.db u patch.email with
      | error e1 =>
        rw [hA] at hb
        simp only [Except.bind, Except.error.injEq] at hb
        subst hb
        have hc := (applyEmailPatch_dup_iff w.db u patch.email e).mp hA
        exact ⟨hc.1, hc.2.1, hc.2.2.1, (dbFindByEmail_isSome_iff w.db e).mp hc.2.2.2⟩
      | ok u1 =>
        rw [hA] at hb
        simp only [Except.bind] at hb
        exact absurd hb (applyUsernamePatch_no_dupEmail w.db u1 patch.username e)
    · rintro ⟨hpe, hemp, hne2, hex⟩
      have hA : applyEmailPatch w.db u patch.email = .error (.dupEmail e) :=
        (applyEmailPatch_dup_iff w.db u patch.email e).mpr
          ⟨hpe, hemp, hne2, (dbFindByEmail_isSome_iff w.db e).mpr hex⟩
      rw [hA]
      rfl
  · rw [update_user_fst_error_iff cacheOk commitOk salt w uid patch u w1 hg (.dupUsername n)
      (by simp), hdb]
    constructor
    · intro hb
      cases hA : applyEmailPatch w.db u patch.email with
      | error e1 =>
        rw [hA] at hb
        simp only [Except.bind, Except.error.injEq] at hb
        subst hb
        exact absurd hA (applyEmailPatch_no_dupUsername w.db u patch.email n)
      | ok u1 =>
        rw [hA] at hb
        simp only [Except.bind] at hb
        have hc := (applyUsernamePatch_dup_iff w.db u1 patch.username n).mp hb
        have hu1 := applyEmailPatch_ok_username w.db u u1 patch.email hA
        refine ⟨⟨u1, rfl⟩, hc.1, hc.2.1, ?_, (dbFindByUsername_isSome_iff w.db n).mp hc.2.2.2⟩
        rw [← hu1]
        exact hc.2.2.1
    · rintro ⟨⟨u1, hA⟩, hpn, hemp, hne2, hex⟩
      have hu1 := applyEmailPatch_ok_username w.db u u1 patch.email hA
      have hB : applyUsernamePatch w.db u1 patch.username = .error (.dupUsername n) :=
        (applyUsernamePatch_dup_iff w.db u1 patch.username n).mpr
          ⟨hpn, hemp, by rw [hu1]; exact hne2, (dbFindByUsername_isSome_iff w.db n).mpr hex⟩
      rw [hA]
      simpa only [Except.bind] using hB
  · intro hpe e2 hcontra
    rw [update_user_fst_error_iff cacheOk commitOk salt w uid patch u w1 hg (.dupEmail e2)
      (by simp)] at hcontra
    cases hA : applyEmailPatch w1.db u patch.email with
    | error e1 =>
      rw [hA] at hcontra
      simp only [Except.bind, Except.error.injEq] at hcontra
      subst hcontra
      have hc := (applyEmailPatch_dup_iff w1.db u patch.email e2).mp hA
      rw [hpe] at hc
      have he2 : u.email = e2 := by simpa using hc.1
      exact hc.2.2.1 he2.symm
    | ok u1 =>
      rw [hA] at hcontra
      simp only [Except.bind] at hcontra
      exact applyUsernamePatch_no_dupEmail w1.db u1 patch.username e2 hcontra
  · intro hpn n2 hcontra
    rw [update_user_fst_error_iff cacheOk commitOk salt w uid patch u w1 hg (.dupUsername n2)
      (by simp)] at hcontra
    cases hA : applyEmailPatch w1.db u patch.email with
    | error e1 =>
      rw [hA] at hcontra
      simp only [Except.bind, Except.error.injEq] at hcontra
      subst hcontra
      exact applyEmailPatch_no_dupUsername w1.db u patch.email n2 hA
    | ok u1 =>
      rw [hA] at hcontra
      simp only [Except.bind] at hcontra
      have hc := (applyUsernamePatch_dup_iff w1.db u1 patch.username n2).mp hcontra
      have hu1 := applyEmailPatch_ok_username w1.db u u1 patch.email hA
      rw [hpn] at hc
      have hn2 : u.username = n2 := by simpa using hc.1
      exact hc.2.2.1 (by rw [hu1, ← hn2])

/-- A non-deleted user row used by the concrete scenarios. -/
def sampleUser : UserRec :=
  ⟨1, "a@x.com", "abc", .digest 0 0, none, true, false, false, none, none⟩

/-- **C4** counterexample: the only user in the store is `sampleUser`
itself, and the patch carries `"A@x.com"` — a case variant of the user's
own email. The claim says a patch value that normalizes to the user's
own current value must not raise a duplicate error, but `update_user`
compares the raw patch string against the stored lower-cased value and
then finds the user itself in the store, raising the duplicate-email
error. -/
theorem update_user_self_email_case_variant_raises_duplicate :
    (update_user true true 0 ⟨[sampleUser], []⟩ 1
        ⟨some "A@x.com", none, none, none, none⟩).1 = .error (.dupEmail "A@x.com") ∧
      pyLower "A@x.com" = sampleUser.email ∧ sampleUser.deleted_at = none :=
  ⟨rfl, rfl, rfl⟩

/-- A second user whose email the C4 witness patch collides with. -/
def otherUser : UserRec :=
  ⟨2, "b@x.com", "bcd", .digest 0 0, none, true, false, false, none, none⟩

/-- Witness for the C4 theorem: patching user 1 with user 2's email is
exactly a duplicate-email error. -/
theorem update_user_duplicate_error_characterization_witness :
    (update_user true true 0 ⟨[sampleUser, otherUser], []⟩ 1
        ⟨some "b@x.com", none, none, none, none⟩).1 = .error (.dupEmail "b@x.com") :=
  ((update_user_duplicate_error_characterization true true 0 ⟨[sampleUser, otherUser], []⟩ 1
      ⟨some "b@x.com", none, none, none, none⟩ sampleUser
      ⟨[sampleUser, otherUser], [("user:1", sampleUser)]⟩ "b@x.com" "x" rfl).1).mpr
    ⟨rfl, rfl, by decide, ⟨otherUser, by simp, rfl, rfl⟩⟩

/-- Witness for the C2 theorem: with a failing commit, deleting user 1
leaves its pre-existing cache entry in place and the trace free of cache
deletions. -/
theorem mutations_invalidate_cache_only_after_commit_witness :
    Event.cacheDelete (userKey 1) ∉
        (delete_user true false 5 ⟨[sampleUser], [(userKey 1, sampleUser)]⟩ 1).2.2 ∧
      cacheFind (delete_user true false 5 ⟨[sampleUser], [(userKey 1, sampleUser)]⟩ 1).2.1.cache
          (userKey 1) = some sampleUser :=
  ⟨(((mutations_invalidate_cache_only_after_commit true false 0 5
        ⟨[sampleUser], [(userKey 1, sampleUser)]⟩ 1 ⟨none, none, none, none, none⟩).2 rfl).1
      (userKey 1)).2.1,
   (((mutations_invalidate_cache_only_after_commit true false 0 5
        ⟨[sampleUser], [(userKey 1, sampleUser)]⟩ 1 ⟨none, none, none, none, none⟩).2 rfl).2
      sampleUser rfl).2.1⟩

/-! ## C8: soft deletion is not repeatable -/

lemma cacheFind_erase (c : UserCache) (k : String) :
    cacheFind (cacheErase c k) k = none := by
  induction c with
  | nil => rfl
  | cons e tl ih =>
    show cacheFind (List.filter (fun x => x.1 != k) (e :: tl)) k = none
    rw [List.filter_cons]
    by_cases he : e.1 = k
    · have hb : (e.1 != k) = false := by simp [he]
      rw [hb]
      simp only [Bool.false_eq_true, if_false]
      exact ih
    · have hb : (e.1 != k) = true := by simp [he]
      rw [hb]
      simp only [if_true]
      show ((e :: List.filter (fun x => x.1 != k) tl).find? (fun x => x.1 == k)).map
          (fun x => x.2) = none
      rw [List.find?_cons_of_neg _ (by simp [he])]
      exact ih

lemma dbFindById_dbUpdate_deleted (db : List UserRec) (uid : Int) (u' : UserRec)
    (h : u'.deleted_at.isNone = false) :
    dbFindById (dbUpdate db uid u') uid = none := by
  induction db with
  | nil => rfl
  | cons v tl ih =>
    show ((if v.id == uid then u' else v) :: List.map (fun x => if x.id == uid then u' else x) tl).find?
        (fun x => x.id == uid && x.deleted_at.isNone) = none
    rw [List.find?_cons_of_neg]
    · exact ih
    · by_cases hv : v.id = uid
      · have hbeq : (v.id == uid) = true := by simpa using hv
        simp [hbeq, h]
      · have hbeq : (v.id == uid) = false := by simpa using hv
        simp [hbeq, hv]

/-- **C8**: after a successful `delete_user(uid)` (with reachable cache,
so the entry was invalidated), any second `delete_user(uid)` returns
`false`; and `delete_user` on an id matching no user (with no stale
cache entry) returns `false`. -/
theorem delete_user_soft_delete_not_repeatable :
    (∀ (w : World) (uid now1 now2 : Int) (c2 k2 : Bool) (w1 : World) (tr1 : List Event),
      delete_user true true now1 w uid = (.ok true, w1, tr1) →
      (delete_user c2 k2 now2 w1 uid).1 = .ok false) ∧
    (∀ (w : World) (uid now : Int) (c k : Bool),
      (∀ v ∈ w.db, v.id ≠ uid) → cacheFind w.cache (userKey uid) = none →
      (delete_user c k now w uid).1 = .ok false) := by
  constructor
  · intro w uid now1 now2 c2 k2 w1 tr1 h1
    rcases hg : get_user_by_id true w uid with ⟨r, wa⟩
    cases r with
    | none => simp [delete_user, hg] at h1
    | some u =>
      have hd : delete_user true true now1 w uid =
          ((commitPhase true true wa uid
              { u with deleted_at := some now1, is_active := false }).1.map (fun _ => true),
            (commitPhase true true wa uid
              { u with deleted_at := some now1, is_active := false }).2.1,
            (commitPhase true true wa uid
              { u with deleted_at := some now1, is_active := false }).2.2) := by
        simp [delete_user, hg]
      rw [hd] at h1
      have hc : commitPhase true true wa uid
          { u with deleted_at := some now1, is_active := false } =
          (.ok (), ⟨dbUpdate wa.db uid { u with deleted_at := some now1, is_active := false },
            cacheErase wa.cache (userKey uid)⟩,
            [.dbCommit, .cacheDelete (userKey uid)]) := rfl
      rw [hc] at h1
      simp only [Prod.mk.injEq] at h1
      obtain ⟨-, hw1, -⟩ := h1
      subst hw1
      have hfindc : cacheFind (cacheErase wa.cache (userKey uid)) (userKey uid) = none :=
        cacheFind_erase _ _
      have hfinddb : dbFindById
          (dbUpdate wa.db uid { u with deleted_at := some now1, is_active := false }) uid =
          none := dbFindById_dbUpdate_deleted _ _ _ rfl
      have hg2 : get_user_by_id c2
          ⟨dbUpdate wa.db uid { u with deleted_at := some now1, is_active := false },
            cacheErase wa.cache (userKey uid)⟩ uid =
          (none, ⟨dbUpdate wa.db uid { u with deleted_at := some now1, is_active := false },
            cacheErase wa.cache (userKey uid)⟩) := by
        cases c2 <;> simp [get_user_by_id, hfindc, hfinddb]
      simp [delete_user, hg2]
  · intro w uid now c k hdb hcache
    have hfind : dbFindById w.db uid = none := by
      apply List.find?_eq_none.mpr
      intro v hv
      have hne := hdb v hv
      simp [hne]
    have hg2 : get_user_by_id c w uid = (none, w) := by
      cases c <;> simp [get_user_by_id, hcache, hfind]
    simp [delete_user, hg2]

/-- Witness for the C8 theorem: user 1 is created, soft-deleted once
(which empties the cache), and a second soft delete reports not-found. -/
theorem delete_user_soft_delete_not_repeatable_witness :
    (delete_user true true 6
        ⟨[{ sampleUser with deleted_at := some 5, is_active := false }], []⟩ 1).1 =
      .ok false :=
  delete_user_soft_delete_not_repeatable.1 ⟨[sampleUser], []⟩ 1 5 6 true true
    ⟨[{ sampleUser with deleted_at := some 5, is_active := false }], []⟩
    [.dbCommit, .cacheDelete (userKey 1)] rfl

/-! ## AuthResolver (`app/utils/auth.py:78-117`) -/

/-- Outcome of `get_current_user`: the 401 `credentials_exception`, or a
Python error escaping `decode_access_token` uncaught. -/
inductive AuthError
  | unauthenticated
  | raised (e : PyError)
deriving DecidableEq, Repr

/-- `get_current_user`: decodes the bearer token (`None` → 401), then
looks the subject id up in the store excluding soft-deleted rows
(`User.deleted_at.is_(None)`); an absent row → 401. -/
def get_current_user (key : Nat) (now : Int) (db : List UserRec) (tok : Token) :
    Except AuthError UserRec :=
  match decode_access_token key now tok with
  | .error e => .error (.raised e)
  | .ok none => .error .unauthenticated
  | .ok (some td) =>
    match dbFindById db td.user_id with
    | some u => .ok u
    | none => .error .unauthenticated

/-- **C7**: a bearer token that verifies successfully but whose subject
id matches no user row, or only rows with a non-null deletion timestamp,
resolves to Unauthenticated rather than a principal. -/
theorem get_current_user_rejects_absent_or_deleted :
    ∀ (key : Nat) (now : Int) (db : List UserRec) (tok : Token) (td : TokenData),
      decode_access_token key now tok = .ok (some td) →
      (∀ v ∈ db, v.id = td.user_id → v.deleted_at ≠ none) →
      get_current_user key now db tok = .error .unauthenticated := by
  intro key now db tok td hdec habs
  have hfind : dbFindById db td.user_id = none := by
    apply List.find?_eq_none.mpr
    intro v hv
    intro hp
    simp only [Bool.and_eq_true, beq_iff_eq, Option.isNone_iff_eq_none] at hp
    exact habs v hv hp.1 hp.2
  simp [get_current_user, hdec, hfind]

/-- Witness for the C7 theorem: a valid token for id 1 where the only
row with id 1 is soft-deleted. -/
theorem get_current_user_rejects_absent_or_deleted_witness :
    get_current_user 7 0 [{ sampleUser with deleted_at := some 3 }]
        (create_access_token 7 0 ⟨some (.str "1"), none, none⟩ (some 60) 30) =
      .error .unauthenticated :=
  get_current_user_rejects_absent_or_deleted 7 0 [{ sampleUser with deleted_at := some 3 }]
    (create_access_token 7 0 ⟨some (.str "1"), none, none⟩ (some 60) 30)
    ⟨1, none, none⟩ rfl (by decide)

/-! ## RateLimitMiddleware (`app/middleware/rate_limit.py`) -/

/-- The per-client Redis counter: `count = 0` models an absent key;
`expiry` is the remaining TTL in seconds (`none`: no expiry set). -/
structure RLState where
  count : Nat
  expiry : Option Nat
deriving DecidableEq, Repr

/-- The three counter-backend calls the middleware makes. -/
inductive RLOp
  | incrOp
  | expireOp
  | ttlOp
deriving DecidableEq, Repr

/-- Backend events of one dispatch, in execution order; the `Fail`
variants mark the call raising. -/
inductive RLEv
  | incrOk
  | incrFail
  | expireOk
  | expireFail
  | ttlOk
  | ttlFail
deriving DecidableEq, Repr

/-- Outcome of one dispatch: the handler response decorated with
rate-limit headers, a 429 rejection, or the handler response without
headers (health-path bypass, or the fail-open `except` path). -/
inductive RLOutcome
  | handled (limit : Nat) (remaining : Int) (reset : Int)
  | rejected (retryAfter : Int) (reset : Int)
  | proceedUnlimited
deriving DecidableEq, Repr

/-- `redis.ttl(key)`: remaining TTL, `-1` when the key exists without
expiry, `-2` when the key is absent. -/
def redisTtl (s : RLState) : Int :=
  match s.expiry with
  | some t => (t : Int)
  | none => if s.count = 0 then -2 else -1

/-- The tail of `dispatch` after the conditional `expire` call: query
the TTL, then reject when the post-increment count exceeds the limit,
else attach `remaining = max(0, limit - count)` and `reset = now + ttl`
headers. -/
def dispatchTail (limit : Nat) (now : Int) (failing : Option RLOp) (c : Nat) (s2 : RLState)
    (evs : List RLEv) : RLOutcome × RLState × List RLEv :=
  if failing = some .ttlOp then (.proceedUnlimited, s2, evs ++ [.ttlFail])
  else
    let ttl := redisTtl s2
    if c > limit then (.rejected ttl (now + ttl), s2, evs ++ [.ttlOk])
    else (.handled limit (max 0 ((limit : Int) - (c : Int))) (now + ttl), s2, evs ++ [.ttlOk])

/-- `RateLimitMiddleware.dispatch` (`rate_limit.py:30-105`) for one
request of one client. `failing` injects a backend call that raises
(`none`: healthy backend); a raising call reaches the
`except Exception` handler, which forwards to `call_next` (fail open).
`INCR` creates an absent key at 1; `EXPIRE 60` runs only when the
post-increment count is 1. -/
def dispatch (limit : Nat) (now : Int) (failing : Option RLOp) (isHealthPath : Bool)
    (s : RLState) : RLOutcome × RLState × List RLEv :=
  if isHealthPath then (.proceedUnlimited, s, [])
  else if failing = some .incrOp then (.proceedUnlimited, s, [.incrFail])
  else if s.count + 1 = 1 then
    if failing = some .expireOp then
      (.proceedUnlimited, ⟨s.count + 1, s.expiry⟩, [.incrOk, .expireFail])
    else dispatchTail limit now failing (s.count + 1) ⟨s.count + 1, some 60⟩
      [.incrOk, .expireOk]
  else dispatchTail limit now failing (s.count + 1) ⟨s.count + 1, s.expiry⟩ [.incrOk]

/-- **C6**: whenever a counter-backend call actually raises during
dispatch (a failure event appears in the trace), the request proceeds to
the handler without rate-limit processing — no rejection and no
propagated error. -/
theorem rate_limiter_fails_open :
    ∀ (limit : Nat) (now : Int) (failing : Option RLOp) (h : Bool) (s : RLState),
      (RLEv.incrFail ∈ (dispatch limit now failing h s).2.2 ∨
        RLEv.expireFail ∈ (dispatch limit now failing h s).2.2 ∨
        RLEv.ttlFail ∈ (dispatch limit now failing h s).2.2) →
      (dispatch limit now failing h s).1 = .proceedUnlimited := by
  intro limit now failing h s
  unfold dispatch
  split
  · intro hmem
    simp at hmem
  · split
    · intro _
      rfl
    · split
      · split
        · intro _
          rfl
        · unfold dispatchTail
          split
          · intro _
            rfl
          · split <;> (intro hmem; simp at hmem)
      · unfold dispatchTail
        split
        · intro _
          rfl
        · split <;> (intro hmem; simp at hmem)

/-- Witness for the C6 theorem: a raising `TTL` query on an in-window
state still lets the request through. -/
theorem rate_limiter_fails_open_witness :
    (dispatch 3 0 (some .ttlOp) false ⟨3, some 42⟩).1 = .proceedUnlimited :=
  rate_limiter_fails_open 3 0 (some .ttlOp) false ⟨3, some 42⟩ (by decide)

/-! ## C5: fixed-window counting -/

/-- The counter state after `n` fail-free non-health requests. -/
def runRequests (limit : Nat) (now : Int) : Nat → RLState → RLState
  | 0, s => s
  | n+1, s => runRequests limit now n (dispatch limit now none false s).2.1

/-- The outcome triple of the `i`-th request (1-based) of a fail-free
single-client run within one window, starting from an absent counter. -/
def nthRequest (limit : Nat) (now : Int) (i : Nat) : RLOutcome × RLState × List RLEv :=
  dispatch limit now none false (runRequests limit now (i - 1) ⟨0, none⟩)

lemma dispatchTail_snd (limit : Nat) (now : Int) (failing : Option RLOp) (c : Nat)
    (s2 : RLState) (evs : List RLEv) :
    (dispatchTail limit now failing c s2 evs).2.1 = s2 := by
  unfold dispatchTail
  split
  · rfl
  · split <;> rfl

lemma runRequests_steady (limit : Nat) (now : Int) :
    ∀ (k m : Nat), 1 ≤ m →
      runRequests limit now k ⟨m, some 60⟩ = ⟨m + k, some 60⟩ := by
  intro k
  induction k with
  | zero => intro m hm; rfl
  | succ k ih =>
    intro m hm
    have hm1 : ¬ (m + 1 = 1) := by omega
    have hstep : (dispatch limit now none false ⟨m, some 60⟩).2.1 = ⟨m + 1, some 60⟩ := by
      simp [dispatch, hm1, dispatchTail_snd]
    show runRequests limit now k (dispatch limit now none false ⟨m, some 60⟩).2.1 = _
    rw [hstep, ih (m + 1) (by omega)]
    congr 1
    omega

lemma runRequests_fresh (limit : Nat) (now : Int) (k : Nat) (hk : 1 ≤ k) :
    runRequests limit now k ⟨0, none⟩ = ⟨k, some 60⟩ := by
  cases k with
  | zero => omega
  | succ k =>
    have hstep : (dispatch limit now none false ⟨0, none⟩).2.1 = ⟨1, some 60⟩ := by
      simp [dispatch, dispatchTail_snd]
    show runRequests limit now k (dispatch limit now none false ⟨0, none⟩).2.1 = _
    rw [hstep]
    cases k with
    | zero => rfl
    | succ k2 =>
      rw [runRequests_steady limit now (k2 + 1) 1 (by omega)]
      congr 1
      omega

/-- **C5**: within one window, with threshold `limit > 0`: each of the
first `limit` requests is allowed with `remaining = max(0, limit − i)`
and `reset = now + ttl` metadata; the `(limit+1)`-th is rejected with the
positive remaining TTL (60) as the retry hint; and the counter expiry is
set exactly once, by the first request of the window (the `EXPIRE` event
appears in request 1's trace only). -/
theorem rate_limit_window_behavior :
    ∀ (limit i : Nat) (now : Int),
      (1 ≤ i → i ≤ limit →
        nthRequest limit now i =
          (.handled limit (max 0 ((limit : Int) - (i : Int))) (now + 60), ⟨i, some 60⟩,
            if i = 1 then [.incrOk, .expireOk, .ttlOk] else [.incrOk, .ttlOk])) ∧
      (1 ≤ limit →
        nthRequest limit now (limit + 1) =
          (.rejected 60 (now + 60), ⟨limit + 1, some 60⟩, [.incrOk, .ttlOk])) := by
  intro limit i now
  constructor
  · intro h1 hle
    unfold nthRequest
    rcases Nat.exists_eq_add_of_le h1 with ⟨j, hj⟩
    subst hj
    cases j with
    | zero =>
      have hng2 : ¬ (0 + 1 > limit) := by omega
      simp [runRequests, dispatch, dispatchTail, redisTtl, hng2]
    | succ j2 =>
      rw [show 1 + (j2 + 1) - 1 = j2 + 1 from by omega,
        runRequests_fresh limit now (j2 + 1) (by omega)]
      have hcnt : ¬ (j2 + 1 + 1 = 1) := by omega
      have hng : ¬ (j2 + 1 + 1 > limit) := by omega
      have hne1 : ¬ (1 + (j2 + 1) = 1) := by omega
      simp [dispatch, dispatchTail, redisTtl, hcnt, hng, hne1]
      refine ⟨?_, by omega⟩
      have harg : ((limit : Int) - ((j2 : Int) + 1 + 1)) =
          (limit : Int) - (1 + ((j2 : Int) + 1)) := by ring
      rw [harg]
  · intro hl
    unfold nthRequest
    rw [show limit + 1 - 1 = limit from by omega,
      runRequests_fresh limit now limit (by omega)]
    have hcnt : ¬ (limit + 1 = 1) := by omega
    have hg : limit + 1 > limit := by omega
    simp [dispatch, dispatchTail, redisTtl, hcnt, hg]

/-- Witness for the C5 theorem with threshold 3: the 3rd request is
allowed with zero remaining quota and the 4th is rejected with retry
hint 60. -/
theorem rate_limit_window_behavior_witness :
    nthRequest 3 0 3 = (.handled 3 0 60, ⟨3, some 60⟩, [.incrOk, .ttlOk]) ∧
      nthRequest 3 0 4 = (.rejected 60 60, ⟨4, some 60⟩, [.incrOk, .ttlOk]) := by
  constructor
  · have h := (rate_limit_window_behavior 3 3 0).1 (by decide) (by decide)
    simpa using h
  · have h := (rate_limit_window_behavior 3 3 0).2 (by decide)
    simpa using h

end NexusForge
